import Mathlib

/-!
Verification development for the Digitalbot repository (a chat-bot storefront).

The development shallowly embeds the JavaScript source:

* Layer 1 models the domain managers (`OrderManager`, `PaymentManager`,
  `UserManager`, `ProductManager`) as pure functions over the effective
  collection state (the list of records the data layer serves), assuming
  persistence succeeds.  Collections are `List` values; `db.findOne` is
  `List.find?`; `db.update` maps the merge over every matching record.
* Layer 2 models the data layer (`DatabaseManager` in `src/utils/database.js`)
  with an explicit cache/file split and explicit success flags for the
  filesystem operations, following the source's try/catch structure.
* The AES-256-CBC whole-file encryption (`SecurityManager.encrypt/decrypt`)
  is modelled as CBC mode with PKCS#7 padding over an abstract block cipher
  supplied with its inverse; the static key/IV pair comes from a
  configuration record, as in `src/config`.

Status fields (`status`, `paymentStatus`, ...) are kept as `String`,
exactly as the source compares them; money and stock are `Int`
(the JavaScript numbers involved are integers); timestamps are `Int`
milliseconds since the epoch, so `new Date(x).getTime() < Date.now()`
becomes integer comparison.
-/

namespace Digitalbot

/-- Result of a manager operation: the source returns either
`{ success: true, ... }` or `{ success: false, message }`. -/
inductive OpResult (α : Type) where
  | success : α → OpResult α
  | failure : String → OpResult α
  deriving Repr, DecidableEq

/-- Generic `DatabaseManager.update` effect on a collection
(`src/unnamed/part_003`, `update`): report whether any record matches and
merge the updates into every matching record. -/
def dbUpdateList (p : α → Bool) (merge : α → α) (l : List α) : Bool × List α :=
  (l.any p, l.map (fun x => if p x then merge x else x))

/-! ## Orders (`src/modules/orderManager.js`) -/

/-- An order record, restricted to the fields the claims are about.
`expiresAt` is milliseconds since the epoch. -/
structure Order where
  orderId : String
  userId : Int
  productName : String
  amount : Int
  status : String
  paymentStatus : String
  deliveryStatus : String
  expiresAt : Int
  deriving Repr, DecidableEq

/-- `OrderManager.getOrder` / `db.findOne('orders', { orderId })`. -/
def findOrder (orders : List Order) (oid : String) : Option Order :=
  orders.find? (fun o => o.orderId == oid)

/-- `OrderManager.approveOrder`: fails when the order is missing or not
`pending`; otherwise sets `status` to `processing` and `paymentStatus`
to `paid` and returns the order as fetched before the update. -/
def approveOrder (orders : List Order) (oid : String) :
    OpResult Order × List Order :=
  match findOrder orders oid with
  | none => (.failure "Order not found", orders)
  | some o =>
    if o.status != "pending" then
      (.failure "Order cannot be approved", orders)
    else
      (.success o,
        (dbUpdateList (fun x => x.orderId == oid)
          (fun x => { x with status := "processing", paymentStatus := "paid" })
          orders).2)

/-- `OrderManager.rejectOrder`: no status guard; any found order is set to
`status = cancelled`, `paymentStatus = refunded`. -/
def rejectOrder (orders : List Order) (oid : String) :
    OpResult Order × List Order :=
  match findOrder orders oid with
  | none => (.failure "Order not found", orders)
  | some o =>
    (.success o,
      (dbUpdateList (fun x => x.orderId == oid)
        (fun x => { x with status := "cancelled", paymentStatus := "refunded" })
        orders).2)

/-- `OrderManager.completeOrder`: no status guard; any found order is set to
`status = completed`, `deliveryStatus = delivered`. -/
def completeOrder (orders : List Order) (oid : String) :
    OpResult Order × List Order :=
  match findOrder orders oid with
  | none => (.failure "Order not found", orders)
  | some o =>
    (.success o,
      (dbUpdateList (fun x => x.orderId == oid)
        (fun x => { x with status := "completed", deliveryStatus := "delivered" })
        orders).2)

/-- `OrderManager.cancelOrder`: only a `pending` or `processing` order can be
cancelled. -/
def cancelOrder (orders : List Order) (oid : String) :
    OpResult Order × List Order :=
  match findOrder orders oid with
  | none => (.failure "Order not found", orders)
  | some o =>
    if !(o.status == "pending" || o.status == "processing") then
      (.failure "Order cannot be cancelled", orders)
    else
      (.success o,
        (dbUpdateList (fun x => x.orderId == oid)
          (fun x => { x with status := "cancelled" })
          orders).2)

/-- Loop body of `OrderManager.cleanupExpiredOrders`: iterate over the
snapshot read at the start, cancelling (by id, against the current state)
every order that was `pending` and past its expiry in the snapshot.
The counter increments whether or not `cancelOrder` succeeds, as in the
source. -/
def cleanupOrdersGo (now : Int) :
    List Order → List Order → Nat → Nat × List Order
  | [], cur, n => (n, cur)
  | o :: rest, cur, n =>
    if o.status == "pending" && o.expiresAt < now then
      cleanupOrdersGo now rest (cancelOrder cur o.orderId).2 (n + 1)
    else
      cleanupOrdersGo now rest cur n

/-- `OrderManager.cleanupExpiredOrders` at time `now`. -/
def cleanupExpiredOrders (now : Int) (orders : List Order) :
    Nat × List Order :=
  cleanupOrdersGo now orders orders 0

/-! ## Deposits (`PaymentManager` in `src/modules/productManager.js`) -/

/-- A deposit record, restricted to the fields the claims are about. -/
structure Deposit where
  depositId : String
  userId : Int
  amount : Int
  method : String
  status : String
  externalId : Option String
  expiresAt : Int
  deriving Repr, DecidableEq

/-- `PaymentManager.getDeposit` / `db.findOne('deposits', { depositId })`. -/
def findDeposit (deposits : List Deposit) (did : String) : Option Deposit :=
  deposits.find? (fun d => d.depositId == did)

/-- `PaymentManager.updateDeposit` specialised to the status updates the
deposit operations perform (timestamp fields are not modelled). -/
def updateDepositStatus (did : String) (newStatus : String)
    (deposits : List Deposit) : Bool × List Deposit :=
  dbUpdateList (fun d => d.depositId == did)
    (fun d => { d with status := newStatus }) deposits

/-- `PaymentManager.approveDeposit`: fails when the deposit is missing or not
`pending`; otherwise sets `status` to `completed`. -/
def approveDeposit (deposits : List Deposit) (did : String) :
    OpResult Deposit × List Deposit :=
  match findDeposit deposits did with
  | none => (.failure "Deposit not found", deposits)
  | some d =>
    if d.status != "pending" then
      (.failure "Deposit cannot be approved", deposits)
    else
      (.success d, (updateDepositStatus did "completed" deposits).2)

/-- `PaymentManager.rejectDeposit`: no status guard; any found deposit is set
to `status = rejected`. -/
def rejectDeposit (deposits : List Deposit) (did : String) :
    OpResult Deposit × List Deposit :=
  match findDeposit deposits did with
  | none => (.failure "Deposit not found", deposits)
  | some d =>
    (.success d, (updateDepositStatus did "rejected" deposits).2)

/-- The `action === 'cancel'` branch of `handleDepositActions`
(`src/unnamed/part_001`): `updateDeposit(depositId, { status: 'cancelled' })`
with no status check and no existence check (the external QRIS cancellation
call does not touch local state). -/
def depositCancelAction (deposits : List Deposit) (did : String) :
    List Deposit :=
  (updateDepositStatus did "cancelled" deposits).2

/-- Loop body of `PaymentManager.cleanupExpiredDeposits`: iterate over the
snapshot, setting every snapshot-`pending` deposit past its expiry to
`expired` by id against the current state (the external QRIS cancellation
call does not touch local state). -/
def cleanupDepositsGo (now : Int) :
    List Deposit → List Deposit → Nat → Nat × List Deposit
  | [], cur, n => (n, cur)
  | d :: rest, cur, n =>
    if d.status == "pending" && d.expiresAt < now then
      cleanupDepositsGo now rest
        (updateDepositStatus d.depositId "expired" cur).2 (n + 1)
    else
      cleanupDepositsGo now rest cur n

/-- `PaymentManager.cleanupExpiredDeposits` at time `now`. -/
def cleanupExpiredDeposits (now : Int) (deposits : List Deposit) :
    Nat × List Deposit :=
  cleanupDepositsGo now deposits deposits 0

/-! ## Users (`UserManager` in `src/modules/productManager.js`) -/

/-- A user record, restricted to the fields the claims are about.
`statTotalOrders` models `statistics.totalOrders`. -/
structure User where
  userId : Int
  balance : Int
  statTotalOrders : Int
  deriving Repr, DecidableEq

/-- `UserManager.getUser` / `db.findOne('users', { userId })`. -/
def findUser (users : List User) (uid : Int) : Option User :=
  users.find? (fun u => u.userId == uid)

/-- `UserManager.updateBalance`: `add` always succeeds; `subtract` throws
`Insufficient balance` when the stored balance is below the amount and
otherwise deducts; `set` overwrites; any other type rewrites the unchanged
balance.  On success the new balance is returned. -/
def updateBalance (users : List User) (uid : Int) (amount : Int)
    (ty : String) : OpResult Int × List User :=
  match findUser users uid with
  | none => (.failure "User not found", users)
  | some u =>
    if ty == "add" then
      let nb := u.balance + amount
      (.success nb,
        (dbUpdateList (fun x => x.userId == uid)
          (fun x => { x with balance := nb }) users).2)
    else if ty == "subtract" then
      if u.balance < amount then
        (.failure "Insufficient balance", users)
      else
        let nb := u.balance - amount
        (.success nb,
          (dbUpdateList (fun x => x.userId == uid)
            (fun x => { x with balance := nb }) users).2)
    else if ty == "set" then
      (.success amount,
        (dbUpdateList (fun x => x.userId == uid)
          (fun x => { x with balance := amount }) users).2)
    else
      (.success u.balance,
        (dbUpdateList (fun x => x.userId == uid)
          (fun x => { x with balance := u.balance }) users).2)

/-! ## Products (`ProductManager` in `src/modules/productManager.js`) -/

/-- A product record, restricted to the fields the claims are about. -/
structure Product where
  productId : String
  name : String
  price : Int
  stock : Int
  totalSales : Int
  status : String
  deriving Repr, DecidableEq

/-- `ProductManager.getProduct` / `db.findOne('products', { productId })`. -/
def findProduct (products : List Product) (pid : String) : Option Product :=
  products.find? (fun p => p.productId == pid)

/-- `ProductManager.incrementSalesCount`: `false` when the product is
missing; otherwise the stock is clamped at zero
(`Math.max(0, stock - 1)`) and the sales counter is incremented. -/
def incrementSalesCount (products : List Product) (pid : String) :
    Bool × List Product :=
  match findProduct products pid with
  | none => (false, products)
  | some p =>
    let newStock := max 0 (p.stock - 1)
    (true,
      (dbUpdateList (fun x => x.productId == pid)
        (fun x => { x with totalSales := p.totalSales + 1, stock := newStock })
        products).2)

/-- `ProductManager.updateStock`: `add` adds, `subtract` clamps at zero
(`Math.max(0, newStock - quantity)`), `set` overwrites, anything else
rewrites the unchanged stock. -/
def updateStock (products : List Product) (pid : String) (quantity : Int)
    (operation : String) : OpResult Int × List Product :=
  match findProduct products pid with
  | none => (.failure "Product not found", products)
  | some p =>
    let newStock :=
      if operation == "add" then p.stock + quantity
      else if operation == "subtract" then max 0 (p.stock - quantity)
      else if operation == "set" then quantity
      else p.stock
    (.success newStock,
      (dbUpdateList (fun x => x.productId == pid)
        (fun x => { x with stock := newStock }) products).2)

/-! ## The data layer (`DatabaseManager`, `src/unnamed/part_003`)

`readData`/`writeData` keep a whole-collection cache next to the JSON file.
The model makes the filesystem explicit: `file` is the raw byte content of
the collection's JSON file (`none` when the file does not exist), a `Codec`
is the serialise/encrypt pipeline (`JSON.stringify` composed with
`SecurityManager.encrypt` when `config.DATABASE.ENCRYPTION` is on, plain
serialisation otherwise), and every filesystem access takes an explicit
success flag.  The `...Try` functions are the try-block bodies (`Except`
carries a thrown error); the public functions are the catch wrappers. -/

/-- Serialise/deserialise pipeline between a collection and the file bytes. -/
structure Codec (α : Type) where
  enc : List α → List Nat
  dec : List Nat → Option (List α)

/-- Cache/file state of one collection of `DatabaseManager`. -/
structure DBState (α : Type) where
  cache : Option (List α)
  file : Option (List Nat)
  deriving Repr, DecidableEq

/-- Try-block body of `DatabaseManager.readData`: serve the cache when
present; return the default (empty) collection when the file is absent;
otherwise read the file (`r` is the filesystem read succeeding), decode
(`JSON.parse`/`decrypt` failures throw), cache the decoded data and return
it. -/
def readDataTry (c : Codec α) (r : Bool) (st : DBState α) :
    Except String (List α × DBState α) :=
  match st.cache with
  | some d => .ok (d, st)
  | none =>
    match st.file with
    | none => .ok ([], st)
    | some bytes =>
      if r then
        match c.dec bytes with
        | some d => .ok (d, { st with cache := some d })
        | none => .error "parse error"
      else .error "read error"

/-- `DatabaseManager.readData`: the catch block logs and returns the default
data, leaving cache and file untouched. -/
def readData (c : Codec α) (r : Bool) (st : DBState α) :
    List α × DBState α :=
  match readDataTry c r st with
  | .ok v => v
  | .error _ => ([], st)

/-- Try-block body of `DatabaseManager.writeData`: encode and write the
whole collection (`w` is the filesystem write succeeding), then cache it. -/
def writeDataTry (c : Codec α) (w : Bool) (_st : DBState α) (dat : List α) :
    Except String (DBState α) :=
  if w then .ok { cache := some dat, file := some (c.enc dat) }
  else .error "write error"

/-- `DatabaseManager.writeData`: `true` on success; the catch block logs and
returns `false`, leaving cache and file untouched (the cache is only set
after a successful write). -/
def writeData (c : Codec α) (w : Bool) (st : DBState α) (dat : List α) :
    Bool × DBState α :=
  match writeDataTry c w st dat with
  | .ok st' => (true, st')
  | .error _ => (false, st)

/-- `DatabaseManager.clearCache` for one collection. -/
def clearCache (st : DBState α) : DBState α :=
  { st with cache := none }

/-- `DatabaseManager.initDatabase` try-block body: `fs.ensureDir` may fail
(`dirsOk`); a missing collection file is created by `writeData` with the
default data (`wInit` is that write's filesystem flag; `writeData` catches
its own errors, so only the directory step can throw). -/
def initDatabaseTry (c : Codec α) (dirsOk wInit : Bool) (st : DBState α) :
    Except String (DBState α) :=
  if dirsOk then
    .ok (if st.file = none then (writeData c wInit st []).2 else st)
  else .error "mkdir error"

/-- `DatabaseManager.initDatabase`: unlike every other data-layer method,
the catch block logs and then rethrows the error. -/
def initDatabase (c : Codec α) (dirsOk wInit : Bool) (st : DBState α) :
    Except String (DBState α) :=
  match initDatabaseTry c dirsOk wInit st with
  | .ok v => .ok v
  | .error e => .error e

/-- `DatabaseManager.insert`: read the collection, push the item and write.
`data.push(item)` mutates the array in place, and `readData` caches the very
array it returns, so after the push the cache already holds the extended
collection even if the subsequent file write fails; `insert` returns the
item whether or not `writeData` reports success. -/
def dbInsert (c : Codec α) [DecidableEq α] (r w : Bool) (st : DBState α)
    (item : α) : DBState α :=
  let res := readData c r st
  let data' := res.1 ++ [item]
  let st₂ : DBState α :=
    if res.2.cache = some res.1 then { res.2 with cache := some data' }
    else res.2
  (writeData c w st₂ data').2

/-- `DatabaseManager.update`: read the collection, build a fresh mapped
array and write it when something matched.  The fresh array means a failed
file write leaves the cache on the old data; the returned flag reports
whether anything matched, not whether the write succeeded, as in the
source. -/
def dbUpdateOp (c : Codec α) (r w : Bool) (p : α → Bool) (merge : α → α)
    (st : DBState α) : Bool × DBState α :=
  let res := readData c r st
  let upd := dbUpdateList p merge res.1
  if upd.1 then (upd.1, (writeData c w res.2 upd.2).2)
  else (upd.1, res.2)

/-- `DBOp` is the alphabet of public cache/file operations the cache
consistency claim quantifies over: `readData`, `writeData`, `clearCache`. -/
inductive DBOp (α : Type) where
  | read (r : Bool)
  | write (w : Bool) (d : List α)
  | clear

/-- Run one data-layer operation. -/
def runOp (c : Codec α) : DBOp α → DBState α → DBState α
  | .read r, st => (readData c r st).2
  | .write w d, st => (writeData c w st d).2
  | .clear, st => clearCache st

/-- Run a sequence of data-layer operations. -/
def runOps (c : Codec α) (ops : List (DBOp α)) (st : DBState α) : DBState α :=
  ops.foldl (fun s op => runOp c op s) st

/-- Cache consistency: a cached entry is exactly the decoded content of the
collection's file, i.e. the data most recently written to or read from it. -/
def cacheConsistent (c : Codec α) (st : DBState α) : Prop :=
  ∀ d, st.cache = some d → ∃ bytes, st.file = some bytes ∧ c.dec bytes = some d

/-- Trivial codec (plain serialisation of an already-serialised collection);
used to instantiate witnesses. -/
def natListCodec : Codec Nat where
  enc := fun l => l
  dec := fun l => some l

/-! ## The pay-with-balance purchase flow (`handlePaymentActions`,
`src/unnamed/part_001`, `method === 'balance'`)

The handler runs `orderManager.createOrder` and then
`userManager.updateBalance(userId, price, 'subtract')` as two separate
steps; the deduction's result is not inspected and there is no rollback.
Branches that call `bot.answerCallbackQuery(query.id, ...)` reference the
out-of-scope `query` variable, throw, and land in the handler's catch
(`errorCaught`); `config.BUSINESS.REQUIRE_APPROVAL` is `true` in
`src/config`, so the success path marks the order paid/processing. -/

/-- `OrderManager.createOrder` over the data layer: build the order record
(status `pending`, `paymentStatus` `unpaid`, expiry one hour out) and insert
it.  `db.insert` catches its own errors and `createOrder` does not inspect
its result, so the operation reports success regardless. -/
def dbCreateOrder (c : Codec Order) (r w : Bool) (st : DBState Order)
    (newOrderId : String) (now uid : Int) (pname : String) (amount : Int) :
    OpResult Order × DBState Order :=
  let order : Order :=
    { orderId := newOrderId, userId := uid, productName := pname,
      amount := amount, status := "pending", paymentStatus := "unpaid",
      deliveryStatus := "pending", expiresAt := now + 3600000 }
  (.success order, dbInsert c r w st order)

/-- `UserManager.updateBalance` over the data layer: `getUser` reads the
collection (`r₁`), the guard logic is as in the pure model, and
`updateUser`'s `db.update` re-reads (`r₂`) and writes (`w`).  The new
balance is reported as success even when the write fails, as in the
source. -/
def dbUpdateBalance (c : Codec User) (r₁ r₂ w : Bool) (st : DBState User)
    (uid amount : Int) (ty : String) : OpResult Int × DBState User :=
  let res := readData c r₁ st
  match findUser res.1 uid with
  | none => (.failure "User not found", res.2)
  | some u =>
    if ty == "add" then
      let nb := u.balance + amount
      (.success nb,
        (dbUpdateOp c r₂ w (fun x => x.userId == uid)
          (fun x => { x with balance := nb }) res.2).2)
    else if ty == "subtract" then
      if u.balance < amount then (.failure "Insufficient balance", res.2)
      else
        let nb := u.balance - amount
        (.success nb,
          (dbUpdateOp c r₂ w (fun x => x.userId == uid)
            (fun x => { x with balance := nb }) res.2).2)
    else if ty == "set" then
      (.success amount,
        (dbUpdateOp c r₂ w (fun x => x.userId == uid)
          (fun x => { x with balance := amount }) res.2).2)
    else
      (.success u.balance,
        (dbUpdateOp c r₂ w (fun x => x.userId == uid)
          (fun x => { x with balance := u.balance }) res.2).2)

/-- The handler's `orderManager.updateOrder(orderId, { paymentStatus:
'paid', status: 'processing' })` over the data layer. -/
def dbUpdateOrderPaid (c : Codec Order) (r w : Bool) (st : DBState Order)
    (oid : String) : Bool × DBState Order :=
  dbUpdateOp c r w (fun x => x.orderId == oid)
    (fun x => { x with paymentStatus := "paid", status := "processing" }) st

/-- `UserManager.incrementOrderCount` over the data layer
(`statistics.totalOrders` is modelled by `statTotalOrders`). -/
def dbIncrementOrderCount (c : Codec User) (r₁ r₂ w : Bool)
    (st : DBState User) (uid : Int) : Bool × DBState User :=
  let res := readData c r₁ st
  match findUser res.1 uid with
  | none => (false, res.2)
  | some u =>
    (true,
      (dbUpdateOp c r₂ w (fun x => x.userId == uid)
        (fun x => { x with statTotalOrders := u.statTotalOrders + 1 })
        res.2).2)

/-- The three collections the balance purchase touches. -/
structure ShopDB where
  users : DBState User
  orders : DBState Order
  products : DBState Product

/-- Outcome the user sees: the success message, or the generic error message
sent by the handler's catch block. -/
inductive PurchaseOutcome where
  | errorCaught
  | paymentSuccess
  deriving Repr, DecidableEq

/-- Filesystem success flags for each access the flow performs, in order. -/
structure PurchaseFlags where
  rProducts : Bool
  rUsers : Bool
  rInsOrder : Bool
  wInsOrder : Bool
  rBal1 : Bool
  rBal2 : Bool
  wBal : Bool
  rUpdOrder : Bool
  wUpdOrder : Bool
  rInc1 : Bool
  rInc2 : Bool
  wInc : Bool

/-- The `method === 'balance'` purchase flow of `handlePaymentActions`. -/
def handlePaymentBalance (cU : Codec User) (cO : Codec Order)
    (cP : Codec Product) (f : PurchaseFlags) (st : ShopDB) (uid : Int)
    (pid : String) (newOrderId : String) (now : Int) :
    PurchaseOutcome × ShopDB :=
  let resP := readData cP f.rProducts st.products
  let st₁ : ShopDB := { st with products := resP.2 }
  let resU := readData cU f.rUsers st₁.users
  let st₂ : ShopDB := { st₁ with users := resU.2 }
  match findProduct resP.1 pid with
  | none => (.errorCaught, st₂)
  | some product =>
    match findUser resU.1 uid with
    | none => (.errorCaught, st₂)
    | some user =>
      if user.balance < product.price then
        (.errorCaught, st₂)
      else
        let co := dbCreateOrder cO f.rInsOrder f.wInsOrder st₂.orders
          newOrderId now uid product.name product.price
        match co.1 with
        | .failure _ => (.errorCaught, { st₂ with orders := co.2 })
        | .success theOrder =>
          let st₃ : ShopDB := { st₂ with orders := co.2 }
          let bal := dbUpdateBalance cU f.rBal1 f.rBal2 f.wBal st₃.users
            uid product.price "subtract"
          let st₄ : ShopDB := { st₃ with users := bal.2 }
          let upd := dbUpdateOrderPaid cO f.rUpdOrder f.wUpdOrder st₄.orders
            theOrder.orderId
          let st₅ : ShopDB := { st₄ with orders := upd.2 }
          let inc := dbIncrementOrderCount cU f.rInc1 f.rInc2 f.wInc
            st₅.users uid
          (.paymentSuccess, { st₅ with users := inc.2 })

/-! ## AES-256-CBC whole-file encryption (`SecurityManager`,
`src/unnamed/part_002`)

`encrypt` builds `crypto.createCipheriv('aes-256-cbc', KEY, IV)` from the
static `config.SECURITY.ENCRYPTION_KEY`/`ENCRYPTION_IV` pair and enciphers
the whole serialised collection as one ciphertext; `decrypt` uses the same
static pair.  The model captures what the Node cipher computes: CBC mode
with PKCS#7 padding over the keyed AES-256 block core, which is taken as an
abstract 16-byte permutation `E` with inverse `D`.  Bytes are `Nat`s and
the per-byte XOR is `Nat.xor`. -/

/-- The static key/IV pair of `config.SECURITY`. -/
structure SecurityConfig where
  encryptionKey : List Nat
  encryptionIv : List Nat

/-- Bytewise XOR of two blocks. -/
def xorBytes (a b : List Nat) : List Nat :=
  List.zipWith Nat.xor a b

/-- PKCS#7 padding to 16-byte blocks. -/
def pad16 (s : List Nat) : List Nat :=
  s ++ List.replicate (16 - s.length % 16) (16 - s.length % 16)

/-- PKCS#7 unpadding; `Decipher.final` throws on invalid padding, modelled
as `none`. -/
def unpad16 (t : List Nat) : Option (List Nat) :=
  match t.getLast? with
  | none => none
  | some k =>
    if 1 ≤ k ∧ k ≤ 16 ∧ k ≤ t.length ∧
        t.drop (t.length - k) = List.replicate k k then
      some (t.take (t.length - k))
    else none

/-- Split a byte list into 16-byte chunks (structural recursion on a length
fuel, so that concrete evaluation reduces). -/
def chunksAux : Nat → List Nat → List (List Nat)
  | 0, _ => []
  | _ + 1, [] => []
  | fuel + 1, a :: l => ((a :: l).take 16) :: chunksAux fuel ((a :: l).drop 16)

/-- Split into 16-byte chunks. -/
def chunks16 (l : List Nat) : List (List Nat) :=
  chunksAux l.length l

/-- CBC encryption of a block list: each plaintext block is XORed with the
previous ciphertext block (initially the IV) and passed through the cipher
core. -/
def cbcEncBlocks (E : List Nat → List Nat) :
    List Nat → List (List Nat) → List (List Nat)
  | _, [] => []
  | prev, b :: bs =>
    E (xorBytes b prev) :: cbcEncBlocks E (E (xorBytes b prev)) bs

/-- CBC decryption of a block list. -/
def cbcDecBlocks (D : List Nat → List Nat) :
    List Nat → List (List Nat) → List (List Nat)
  | _, [] => []
  | prev, cblk :: cs =>
    xorBytes (D cblk) prev :: cbcDecBlocks D cblk cs

/-- `SecurityManager.encrypt`: one AES-256-CBC ciphertext of the whole text
under the static key/IV pair from configuration (`E` is the AES core,
applied at the configured key). -/
def encryptSec (E : List Nat → List Nat → List Nat) (cfg : SecurityConfig)
    (text : List Nat) : List Nat :=
  (cbcEncBlocks (E cfg.encryptionKey) cfg.encryptionIv
    (chunks16 (pad16 text))).flatten

/-- `SecurityManager.decrypt` with the same static key/IV pair. -/
def decryptSec (D : List Nat → List Nat → List Nat) (cfg : SecurityConfig)
    (ct : List Nat) : Option (List Nat) :=
  unpad16 (cbcDecBlocks (D cfg.encryptionKey) cfg.encryptionIv
    (chunks16 ct)).flatten

/-- The `config.DATABASE.ENCRYPTION = true` pipeline of the data layer:
`writeData` stores `encrypt(JSON.stringify(data))` and `readData` parses
after `decrypt`; the collection is taken in its serialised byte form, so
serialisation is the identity embedding. -/
def aesCodec (E D : List Nat → List Nat → List Nat)
    (cfg : SecurityConfig) : Codec Nat where
  enc := encryptSec E cfg
  dec := decryptSec D cfg

/-! ## Generic lemmas about `find?` and the update map -/

/-- `List.find?` commutes with mapping a function that does not change the
predicate (for us: updates preserve the record's id). -/
theorem find?_map_of_pred_inv {α : Type} (p : α → Bool) (f : α → α)
    (hf : ∀ x, p (f x) = p x) :
    ∀ l : List α, List.find? p (l.map f) = (List.find? p l).map f := by
  intro l
  have hpf : p ∘ f = p := funext hf
  rw [List.find?_map, hpf]

/-- `find?` on an update that only touches records matching another id is
unchanged when the two ids differ. -/
theorem find?_dbUpdateList_ne {α κ : Type} [BEq κ] [LawfulBEq κ]
    (idf : α → κ) (oid oid' : κ)
    (merge : α → α) (hm : ∀ x, idf (merge x) = idf x) (hne : oid' ≠ oid)
    (l : List α) :
    List.find? (fun x => idf x == oid')
      ((dbUpdateList (fun x => idf x == oid) merge l).2) =
    List.find? (fun x => idf x == oid') l := by
  unfold dbUpdateList
  rw [find?_map_of_pred_inv (fun x => idf x == oid')
    (fun x => if idf x == oid then merge x else x)
    (by
      intro x
      by_cases h : idf x == oid
      · simp [h, hm]
      · simp [h])]
  rcases h : List.find? (fun x => idf x == oid') l with _ | x
  · rfl
  · have hx : idf x = oid' := by
      have := List.find?_some h
      simpa using this
    have hxo : (idf x == oid) = false := by
      simp only [beq_eq_false_iff_ne, ne_eq, hx]
      exact hne
    have hfix : (if idf x == oid then merge x else x) = x := by
      rw [hxo]
      simp
    show some (if idf x == oid then merge x else x) = some x
    rw [hfix]

/-- After an update keyed on `oid`, `find?` on `oid` returns the found record
with the merge applied (updates preserve the id field). -/
theorem find?_dbUpdateList_eq {α κ : Type} [BEq κ] (idf : α → κ) (oid : κ)
    (merge : α → α) (hm : ∀ x, idf (merge x) = idf x) (l : List α) (o : α)
    (h : List.find? (fun x => idf x == oid) l = some o) :
    List.find? (fun x => idf x == oid)
      ((dbUpdateList (fun x => idf x == oid) merge l).2) = some (merge o) := by
  unfold dbUpdateList
  rw [find?_map_of_pred_inv (fun x => idf x == oid)
    (fun x => if idf x == oid then merge x else x)
    (by
      intro x
      by_cases hx : (idf x == oid) = true
      · simp [hx, hm]
      · simp [hx]), h]
  have ho : (idf o == oid) = true := by
    have := List.find?_some h
    simpa using this
  show some (if idf o == oid then merge o else o) = some (merge o)
  rw [if_pos ho]

/-! ## C1: approving a pending order -/

/-- C1: for a stored order with status `pending`, `approveOrder` succeeds and
the stored order's `status` becomes `processing` and its `paymentStatus`
becomes `paid`; for a stored order whose status is not `pending`,
`approveOrder` returns a failure object and the order collection is
unchanged. -/
theorem approveOrder_pending_spec (orders : List Order) (oid : String)
    (o : Order) (hfind : findOrder orders oid = some o) :
    (o.status = "pending" →
      (approveOrder orders oid).1 = .success o ∧
      findOrder (approveOrder orders oid).2 oid =
        some { o with status := "processing", paymentStatus := "paid" }) ∧
    (o.status ≠ "pending" →
      (∃ msg, (approveOrder orders oid).1 = .failure msg) ∧
      (approveOrder orders oid).2 = orders) := by
  constructor
  · intro hp
    have hcond : (o.status != "pending") = false := by simp [hp]
    constructor
    · simp [approveOrder, hfind, hcond]
    · simp only [approveOrder, hfind, hcond, Bool.false_eq_true, if_false]
      exact find?_dbUpdateList_eq (fun x : Order => x.orderId) oid
        (fun x => { x with status := "processing", paymentStatus := "paid" })
        (fun _ => rfl) orders o hfind
  · intro hp
    have hcond : (o.status != "pending") = true := by simp [hp]
    constructor
    · exact ⟨"Order cannot be approved", by simp [approveOrder, hfind, hcond]⟩
    · simp [approveOrder, hfind, hcond]

/-- Witness for C1 on a concrete pending order and a concrete non-pending
order. -/
theorem approveOrder_pending_spec_witness :
    (approveOrder
        [{ orderId := "O1", userId := 7, productName := "ebook", amount := 5000,
           status := "pending", paymentStatus := "unpaid",
           deliveryStatus := "pending", expiresAt := 100 }] "O1").1 =
      .success { orderId := "O1", userId := 7, productName := "ebook",
                 amount := 5000, status := "pending", paymentStatus := "unpaid",
                 deliveryStatus := "pending", expiresAt := 100 } ∧
    findOrder (approveOrder
        [{ orderId := "O1", userId := 7, productName := "ebook", amount := 5000,
           status := "pending", paymentStatus := "unpaid",
           deliveryStatus := "pending", expiresAt := 100 }] "O1").2 "O1" =
      some { orderId := "O1", userId := 7, productName := "ebook",
             amount := 5000, status := "processing", paymentStatus := "paid",
             deliveryStatus := "pending", expiresAt := 100 } :=
  (approveOrder_pending_spec
    [{ orderId := "O1", userId := 7, productName := "ebook", amount := 5000,
       status := "pending", paymentStatus := "unpaid",
       deliveryStatus := "pending", expiresAt := 100 }] "O1"
    { orderId := "O1", userId := 7, productName := "ebook", amount := 5000,
      status := "pending", paymentStatus := "unpaid",
      deliveryStatus := "pending", expiresAt := 100 }
    (by decide)).1 (by decide)

/-! ## C9: balance subtraction never goes negative -/

/-- C9: for an existing user, `updateBalance(userId, amount, 'subtract')`
fails with message `Insufficient balance` exactly when the stored balance is
below the amount; on failure the collection is unchanged, and on success the
stored balance becomes the old balance minus the amount, which is
non-negative. -/
theorem updateBalance_subtract_spec (users : List User) (uid amount : Int)
    (u : User) (hfind : findUser users uid = some u) :
    ((updateBalance users uid amount "subtract").1 =
        .failure "Insufficient balance" ↔ u.balance < amount) ∧
    (u.balance < amount →
      (updateBalance users uid amount "subtract").2 = users) ∧
    (¬ u.balance < amount →
      (updateBalance users uid amount "subtract").1 =
        .success (u.balance - amount) ∧
      findUser (updateBalance users uid amount "subtract").2 uid =
        some { u with balance := u.balance - amount } ∧
      0 ≤ u.balance - amount) := by
  refine ⟨?_, ?_, ?_⟩
  · by_cases hlt : u.balance < amount
    · simp [updateBalance, hfind, hlt]
    · simp [updateBalance, hfind, hlt]
  · intro hlt
    simp [updateBalance, hfind, hlt]
  · intro hge
    refine ⟨by simp [updateBalance, hfind, hge], ?_, by omega⟩
    have hsub :
        (updateBalance users uid amount "subtract").2 =
          (dbUpdateList (fun x => x.userId == uid)
            (fun x => { x with balance := u.balance - amount }) users).2 := by
      simp [updateBalance, hfind, hge]
    rw [hsub]
    exact find?_dbUpdateList_eq (fun x : User => x.userId) uid
      (fun x => { x with balance := u.balance - amount })
      (fun _ => rfl) users u hfind

/-- Witness for C9 on a concrete user: balance 100, subtracting 250 fails
with `Insufficient balance`, and subtracting is unavailable below the
amount. -/
theorem updateBalance_subtract_spec_witness :
    ((updateBalance [{ userId := 7, balance := 100, statTotalOrders := 0 }]
        7 250 "subtract").1 = .failure "Insufficient balance" ↔
      (100 : Int) < 250) ∧
    ((100 : Int) < 250 →
      (updateBalance [{ userId := 7, balance := 100, statTotalOrders := 0 }]
        7 250 "subtract").2 =
        [{ userId := 7, balance := 100, statTotalOrders := 0 }]) ∧
    (¬ (100 : Int) < 250 →
      (updateBalance [{ userId := 7, balance := 100, statTotalOrders := 0 }]
        7 250 "subtract").1 = .success (100 - 250) ∧
      findUser (updateBalance
          [{ userId := 7, balance := 100, statTotalOrders := 0 }]
          7 250 "subtract").2 7 =
        some { userId := 7, balance := 100 - 250, statTotalOrders := 0 } ∧
      (0 : Int) ≤ 100 - 250) :=
  updateBalance_subtract_spec
    [{ userId := 7, balance := 100, statTotalOrders := 0 }] 7 250
    { userId := 7, balance := 100, statTotalOrders := 0 } (by decide)

/-! ## C10: sale operations clamp stock at zero -/

/-- C10: for an existing product, `incrementSalesCount` and
`updateStock(_, q, 'subtract')` set the new stock to the maximum of zero and
the decremented value, so the resulting stock is non-negative. -/
theorem stock_clamped_nonneg (products : List Product) (pid : String)
    (q : Int) (p : Product) (hfind : findProduct products pid = some p) :
    ((incrementSalesCount products pid).1 = true ∧
      findProduct (incrementSalesCount products pid).2 pid =
        some { p with totalSales := p.totalSales + 1,
                      stock := max 0 (p.stock - 1) } ∧
      0 ≤ max 0 (p.stock - 1)) ∧
    ((updateStock products pid q "subtract").1 =
        .success (max 0 (p.stock - q)) ∧
      findProduct (updateStock products pid q "subtract").2 pid =
        some { p with stock := max 0 (p.stock - q) } ∧
      0 ≤ max 0 (p.stock - q)) := by
  constructor
  · refine ⟨by simp [incrementSalesCount, hfind], ?_, le_max_left 0 _⟩
    have hs : (incrementSalesCount products pid).2 =
        (dbUpdateList (fun x => x.productId == pid)
          (fun x => { x with totalSales := p.totalSales + 1,
                             stock := max 0 (p.stock - 1) }) products).2 := by
      simp [incrementSalesCount, hfind]
    rw [hs]
    exact find?_dbUpdateList_eq (fun x : Product => x.productId) pid
      (fun x => { x with totalSales := p.totalSales + 1,
                         stock := max 0 (p.stock - 1) })
      (fun _ => rfl) products p hfind
  · refine ⟨by simp [updateStock, hfind], ?_, le_max_left 0 _⟩
    have hs : (updateStock products pid q "subtract").2 =
        (dbUpdateList (fun x => x.productId == pid)
          (fun x => { x with stock := max 0 (p.stock - q) }) products).2 := by
      simp [updateStock, hfind]
    rw [hs]
    exact find?_dbUpdateList_eq (fun x : Product => x.productId) pid
      (fun x => { x with stock := max 0 (p.stock - q) })
      (fun _ => rfl) products p hfind

/-- Witness for C10 on a concrete product with stock 1: the decremented
stock stays at zero for both operations. -/
theorem stock_clamped_nonneg_witness :
    ((incrementSalesCount
        [{ productId := "P1", name := "ebook", price := 5000, stock := 1,
           totalSales := 3, status := "active" }] "P1").1 = true ∧
      findProduct (incrementSalesCount
        [{ productId := "P1", name := "ebook", price := 5000, stock := 1,
           totalSales := 3, status := "active" }] "P1").2 "P1" =
        some { productId := "P1", name := "ebook", price := 5000,
               stock := max 0 (1 - 1), totalSales := 3 + 1,
               status := "active" } ∧
      (0 : Int) ≤ max 0 (1 - 1)) ∧
    ((updateStock
        [{ productId := "P1", name := "ebook", price := 5000, stock := 1,
           totalSales := 3, status := "active" }] "P1" 5 "subtract").1 =
        .success (max 0 (1 - 5)) ∧
      findProduct (updateStock
        [{ productId := "P1", name := "ebook", price := 5000, stock := 1,
           totalSales := 3, status := "active" }] "P1" 5 "subtract").2 "P1" =
        some { productId := "P1", name := "ebook", price := 5000,
               stock := max 0 (1 - 5), totalSales := 3,
               status := "active" } ∧
      (0 : Int) ≤ max 0 (1 - 5)) := by
  have h := stock_clamped_nonneg
    [{ productId := "P1", name := "ebook", price := 5000, stock := 1,
       totalSales := 3, status := "active" }] "P1" 5
    { productId := "P1", name := "ebook", price := 5000, stock := 1,
      totalSales := 3, status := "active" } (by decide)
  exact h

/-! ## C3: the order status transition diagram

`approveOrder` and `cancelOrder` guard on the current status and
`cleanupExpiredOrders` only cancels through `cancelOrder`, but
`rejectOrder` and `completeOrder` rewrite the status of any found order
without checking it, so the claimed diagram is violated. -/

/-- C3 counterexample: `rejectOrder` moves an already-`completed` order to
`cancelled`, and `completeOrder` moves a `pending` order directly to
`completed`; both transitions are outside the claimed diagram. -/
theorem order_transition_violation :
    (findOrder (rejectOrder
        [{ orderId := "O1", userId := 7, productName := "ebook",
           amount := 5000, status := "completed", paymentStatus := "paid",
           deliveryStatus := "delivered", expiresAt := 100 }] "O1").2 "O1"
      |>.map Order.status) = some "cancelled" ∧
    (findOrder (completeOrder
        [{ orderId := "O2", userId := 7, productName := "ebook",
           amount := 5000, status := "pending", paymentStatus := "unpaid",
           deliveryStatus := "pending", expiresAt := 100 }] "O2").2 "O2"
      |>.map Order.status) = some "completed" := by
  decide

/-- `cancelOrder` leaves the record found under a different id unchanged. -/
theorem cancelOrder_find?_other (orders : List Order) (oid oid' : String)
    (hne : oid' ≠ oid) :
    findOrder (cancelOrder orders oid).2 oid' = findOrder orders oid' := by
  unfold cancelOrder
  rcases h : findOrder orders oid with _ | z
  · rfl
  · by_cases hz : (!(z.status == "pending" || z.status == "processing")) = true
    · simp only [hz, if_true]
    · simp only [hz, Bool.false_eq_true, if_false]
      exact find?_dbUpdateList_ne (fun x : Order => x.orderId) oid oid'
        (fun x => { x with status := "cancelled" }) (fun _ => rfl) hne orders

/-- `cancelOrder` on the found order: either the guard refuses (status not
`pending`/`processing`) and the state is unchanged, or the found order's
status becomes `cancelled`. -/
theorem cancelOrder_find?_self (orders : List Order) (oid : String)
    (y : Order) (h : findOrder orders oid = some y) :
    (¬(y.status = "pending" ∨ y.status = "processing") ∧
      (cancelOrder orders oid).2 = orders) ∨
    ((y.status = "pending" ∨ y.status = "processing") ∧
      findOrder (cancelOrder orders oid).2 oid =
        some { y with status := "cancelled" }) := by
  by_cases hy : y.status = "pending" ∨ y.status = "processing"
  · right
    refine ⟨hy, ?_⟩
    have hguard : (!(y.status == "pending" || y.status == "processing"))
        = false := by
      rcases hy with hy | hy <;> simp [hy]
    simp only [cancelOrder, h, hguard, Bool.false_eq_true, if_false]
    exact find?_dbUpdateList_eq (fun x : Order => x.orderId) oid
      (fun x => { x with status := "cancelled" }) (fun _ => rfl) orders y h
  · left
    refine ⟨hy, ?_⟩
    have hguard : (!(y.status == "pending" || y.status == "processing"))
        = true := by
      push_neg at hy
      simp [hy.1, hy.2]
    simp [cancelOrder, h, hguard]

/-- Every change `cleanupExpiredOrders`' loop makes to the record found
under a given id goes through `cancelOrder`, so it is a move from `pending`
or `processing` to `cancelled`. -/
theorem cleanupOrdersGo_find? (now : Int) (oid : String) :
    ∀ (snap cur : List Order) (n : Nat) (y : Order),
      findOrder cur oid = some y →
      findOrder (cleanupOrdersGo now snap cur n).2 oid = some y ∨
      ((y.status = "pending" ∨ y.status = "processing") ∧
        findOrder (cleanupOrdersGo now snap cur n).2 oid =
          some { y with status := "cancelled" }) := by
  intro snap
  induction snap with
  | nil =>
    intro cur n y hy
    exact Or.inl hy
  | cons o rest ih =>
    intro cur n y hy
    rw [cleanupOrdersGo]
    by_cases htrig : (o.status == "pending" && decide (o.expiresAt < now))
        = true
    · rw [if_pos htrig]
      by_cases hid : o.orderId = oid
      · subst hid
        rcases cancelOrder_find?_self cur o.orderId y hy with
          ⟨_, hst⟩ | ⟨hgood, hst⟩
        · rw [hst]
          exact ih cur (n + 1) y hy
        · rcases ih (cancelOrder cur o.orderId).2 (n + 1)
            { y with status := "cancelled" } hst with hres | ⟨hbad, _⟩
          · exact Or.inr ⟨hgood, hres⟩
          · rcases hbad with hbad | hbad <;> simp at hbad
      · have hfind' : findOrder (cancelOrder cur o.orderId).2 oid = some y := by
          rw [cancelOrder_find?_other cur o.orderId oid
            (fun h => hid h.symm)]
          exact hy
        exact ih (cancelOrder cur o.orderId).2 (n + 1) y hfind'
    · rw [if_neg htrig]
      exact ih cur n y hy

/-- C3 amended: `approveOrder`, `cancelOrder` and `cleanupExpiredOrders`
follow the diagram (they move the found order only from `pending` to
`processing`, or from `pending`/`processing` to `cancelled`), but
`rejectOrder` sets any found order to `cancelled`/`refunded` and
`completeOrder` sets any found order to `completed`/`delivered`, regardless
of its current status. -/
theorem order_transitions_amended (orders : List Order) (oid : String)
    (now : Int) (y : Order) (hfind : findOrder orders oid = some y) :
    (findOrder (approveOrder orders oid).2 oid = some y ∨
      (y.status = "pending" ∧
        findOrder (approveOrder orders oid).2 oid =
          some { y with status := "processing", paymentStatus := "paid" })) ∧
    (findOrder (cancelOrder orders oid).2 oid = some y ∨
      ((y.status = "pending" ∨ y.status = "processing") ∧
        findOrder (cancelOrder orders oid).2 oid =
          some { y with status := "cancelled" })) ∧
    (findOrder (cleanupExpiredOrders now orders).2 oid = some y ∨
      ((y.status = "pending" ∨ y.status = "processing") ∧
        findOrder (cleanupExpiredOrders now orders).2 oid =
          some { y with status := "cancelled" })) ∧
    findOrder (rejectOrder orders oid).2 oid =
      some { y with status := "cancelled", paymentStatus := "refunded" } ∧
    findOrder (completeOrder orders oid).2 oid =
      some { y with status := "completed", deliveryStatus := "delivered" } := by
  refine ⟨?_, ?_, ?_, ?_, ?_⟩
  · by_cases hp : y.status = "pending"
    · right
      refine ⟨hp, ?_⟩
      have hcond : (y.status != "pending") = false := by simp [hp]
      simp only [approveOrder, hfind, hcond, Bool.false_eq_true, if_false]
      exact find?_dbUpdateList_eq (fun x : Order => x.orderId) oid
        (fun x => { x with status := "processing", paymentStatus := "paid" })
        (fun _ => rfl) orders y hfind
    · left
      have hcond : (y.status != "pending") = true := by simp [hp]
      simp [approveOrder, hfind, hcond]
  · rcases cancelOrder_find?_self orders oid y hfind with ⟨_, hst⟩ | hgood
    · exact Or.inl (by rw [hst]; exact hfind)
    · exact Or.inr hgood
  · exact cleanupOrdersGo_find? now oid orders orders 0 y hfind
  · simp only [rejectOrder, hfind]
    exact find?_dbUpdateList_eq (fun x : Order => x.orderId) oid
      (fun x => { x with status := "cancelled", paymentStatus := "refunded" })
      (fun _ => rfl) orders y hfind
  · simp only [completeOrder, hfind]
    exact find?_dbUpdateList_eq (fun x : Order => x.orderId) oid
      (fun x => { x with status := "completed", deliveryStatus := "delivered" })
      (fun _ => rfl) orders y hfind

/-- Witness for the amended C3 on a concrete processing order:
`rejectOrder` rewrites it to `cancelled`/`refunded`. -/
theorem order_transitions_amended_witness :
    findOrder (rejectOrder
        [{ orderId := "O1", userId := 7, productName := "ebook",
           amount := 5000, status := "processing", paymentStatus := "paid",
           deliveryStatus := "pending", expiresAt := 100 }] "O1").2 "O1" =
      some { orderId := "O1", userId := 7, productName := "ebook",
             amount := 5000, status := "cancelled",
             paymentStatus := "refunded", deliveryStatus := "pending",
             expiresAt := 100 } :=
  (order_transitions_amended
    [{ orderId := "O1", userId := 7, productName := "ebook",
       amount := 5000, status := "processing", paymentStatus := "paid",
       deliveryStatus := "pending", expiresAt := 100 }] "O1" 50
    { orderId := "O1", userId := 7, productName := "ebook",
      amount := 5000, status := "processing", paymentStatus := "paid",
      deliveryStatus := "pending", expiresAt := 100 } (by decide)).2.2.2.1


/-! ## Deposit update lemmas, C2 and C4 -/

/-- `updateDeposit` keyed on another id leaves the record found under `did'`
unchanged. -/
theorem updateDepositStatus_find?_other (deposits : List Deposit)
    (did did' newSt : String) (hne : did' ≠ did) :
    findDeposit (updateDepositStatus did newSt deposits).2 did' =
      findDeposit deposits did' :=
  find?_dbUpdateList_ne (fun x : Deposit => x.depositId) did did'
    (fun d => { d with status := newSt }) (fun _ => rfl) hne deposits

/-- `updateDeposit` keyed on the found record's id rewrites its status. -/
theorem updateDepositStatus_find?_self (deposits : List Deposit)
    (did newSt : String) (y : Deposit) (h : findDeposit deposits did = some y) :
    findDeposit (updateDepositStatus did newSt deposits).2 did =
      some { y with status := newSt } :=
  find?_dbUpdateList_eq (fun x : Deposit => x.depositId) did
    (fun d => { d with status := newSt }) (fun _ => rfl) deposits y h

/-- If no snapshot element with the given id is pending and expired, the
deposit sweep leaves the record found under that id unchanged. -/
theorem cleanupDepositsGo_no_trigger (now : Int) (did : String) :
    ∀ (snap cur : List Deposit) (n : Nat) (y : Deposit),
      findDeposit cur did = some y →
      (∀ d ∈ snap, d.depositId = did →
        ¬(d.status = "pending" ∧ d.expiresAt < now)) →
      findDeposit (cleanupDepositsGo now snap cur n).2 did = some y := by
  intro snap
  induction snap with
  | nil =>
    intro cur n y hy _
    exact hy
  | cons d rest ih =>
    intro cur n y hy hno
    rw [cleanupDepositsGo]
    by_cases htrig : (d.status == "pending" && decide (d.expiresAt < now))
        = true
    · rw [if_pos htrig]
      simp only [Bool.and_eq_true, beq_iff_eq, decide_eq_true_eq] at htrig
      have hdid : d.depositId ≠ did := by
        intro heq
        exact hno d (by simp) heq htrig
      have hy' :
          findDeposit (updateDepositStatus d.depositId "expired" cur).2 did =
            some y := by
        rw [updateDepositStatus_find?_other cur d.depositId did "expired"
          (fun h => hdid h.symm)]
        exact hy
      exact ih _ (n + 1) y hy' (fun d' hd' => hno d' (by simp [hd']))
    · rw [if_neg htrig]
      exact ih cur n y hy (fun d' hd' => hno d' (by simp [hd']))

/-- If some snapshot element with the given id is pending and expired, the
deposit sweep rewrites the record found under that id to `expired`
(the unguarded `updateDeposit` applies to the current record whatever its
status). -/
theorem cleanupDepositsGo_trigger (now : Int) (did : String) :
    ∀ (snap cur : List Deposit) (n : Nat) (y : Deposit),
      findDeposit cur did = some y →
      (∃ d ∈ snap, d.depositId = did ∧ d.status = "pending" ∧
        d.expiresAt < now) →
      findDeposit (cleanupDepositsGo now snap cur n).2 did =
        some { y with status := "expired" } := by
  intro snap
  induction snap with
  | nil =>
    intro cur n y hy hex
    rcases hex with ⟨d, hd, _⟩
    exact absurd hd (List.not_mem_nil d)
  | cons d rest ih =>
    intro cur n y hy hex
    rw [cleanupDepositsGo]
    by_cases htrig : (d.status == "pending" && decide (d.expiresAt < now))
        = true
    · rw [if_pos htrig]
      by_cases hdid : d.depositId = did
      · have hy' :
            findDeposit (updateDepositStatus d.depositId "expired" cur).2
              did = some { y with status := "expired" } := by
          rw [hdid]
          exact updateDepositStatus_find?_self cur did "expired" y hy
        by_cases hrest : ∃ d' ∈ rest, d'.depositId = did ∧
            d'.status = "pending" ∧ d'.expiresAt < now
        · exact ih _ (n + 1) { y with status := "expired" } hy' hrest
        · exact cleanupDepositsGo_no_trigger now did rest _ (n + 1) _ hy'
            (fun d' hd' heq hpe => hrest ⟨d', hd', heq, hpe⟩)
      · have hy' :
            findDeposit (updateDepositStatus d.depositId "expired" cur).2
              did = some y := by
          rw [updateDepositStatus_find?_other cur d.depositId did "expired"
            (fun h => hdid h.symm)]
          exact hy
        have hex' : ∃ d' ∈ rest, d'.depositId = did ∧
            d'.status = "pending" ∧ d'.expiresAt < now := by
          rcases hex with ⟨d₀, hd₀, h1, h2⟩
          rcases List.mem_cons.mp hd₀ with rfl | hd₀'
          · exact absurd h1 hdid
          · exact ⟨d₀, hd₀', h1, h2⟩
        exact ih _ (n + 1) y hy' hex'
    · rw [if_neg htrig]
      simp only [Bool.and_eq_true, beq_iff_eq, decide_eq_true_eq,
        not_and] at htrig
      have hex' : ∃ d' ∈ rest, d'.depositId = did ∧
          d'.status = "pending" ∧ d'.expiresAt < now := by
        rcases hex with ⟨d₀, hd₀, h1, h2, h3⟩
        rcases List.mem_cons.mp hd₀ with rfl | hd₀'
        · exact absurd h3 (htrig h2)
        · exact ⟨d₀, hd₀', h1, h2, h3⟩
      exact ih cur n y hy hex'

/-- C2: a stored deposit that is `pending` with `expiresAt` strictly before
`now` is set to `expired` by one run of `cleanupExpiredDeposits`, and any
further run (at any time) leaves that deposit unchanged: the sweep marks it
expired exactly once. -/
theorem deposit_expired_once (deposits : List Deposit) (now : Int)
    (did : String) (d : Deposit) (hfind : findDeposit deposits did = some d)
    (hp : d.status = "pending") (hexp : d.expiresAt < now) :
    findDeposit (cleanupExpiredDeposits now deposits).2 did =
      some { d with status := "expired" } ∧
    ∀ now' : Int,
      findDeposit
          (cleanupExpiredDeposits now'
            (cleanupExpiredDeposits now deposits).2).2 did =
        some { d with status := "expired" } := by
  have hmem : d ∈ deposits := List.mem_of_find?_eq_some hfind
  have hdid : d.depositId = did := by
    have := List.find?_some hfind
    simpa using this
  have h1 : findDeposit (cleanupExpiredDeposits now deposits).2 did =
      some { d with status := "expired" } :=
    cleanupDepositsGo_trigger now did deposits deposits 0 d hfind
      ⟨d, hmem, hdid, hp, hexp⟩
  refine ⟨h1, ?_⟩
  intro now'
  by_cases hex : ∃ d' ∈ (cleanupExpiredDeposits now deposits).2,
      d'.depositId = did ∧ d'.status = "pending" ∧ d'.expiresAt < now'
  · exact cleanupDepositsGo_trigger now' did
      (cleanupExpiredDeposits now deposits).2
      (cleanupExpiredDeposits now deposits).2 0
      { d with status := "expired" } h1 hex
  · exact cleanupDepositsGo_no_trigger now' did
      (cleanupExpiredDeposits now deposits).2
      (cleanupExpiredDeposits now deposits).2 0 _ h1
      (fun d' hd' heq hpe => hex ⟨d', hd', heq, hpe⟩)

/-- Witness for C2 on a concrete pending deposit that expired at time 10,
swept at time 20 and again at time 99. -/
theorem deposit_expired_once_witness :
    findDeposit (cleanupExpiredDeposits 20
        [{ depositId := "D1", userId := 7, amount := 1000, method := "QRIS",
           status := "pending", externalId := none, expiresAt := 10 }]).2
      "D1" =
      some { depositId := "D1", userId := 7, amount := 1000,
             method := "QRIS", status := "expired", externalId := none,
             expiresAt := 10 } ∧
    findDeposit (cleanupExpiredDeposits 99
        (cleanupExpiredDeposits 20
          [{ depositId := "D1", userId := 7, amount := 1000, method := "QRIS",
             status := "pending", externalId := none,
             expiresAt := 10 }]).2).2 "D1" =
      some { depositId := "D1", userId := 7, amount := 1000,
             method := "QRIS", status := "expired", externalId := none,
             expiresAt := 10 } := by
  have h := deposit_expired_once
    [{ depositId := "D1", userId := 7, amount := 1000, method := "QRIS",
       status := "pending", externalId := none, expiresAt := 10 }] 20 "D1"
    { depositId := "D1", userId := 7, amount := 1000, method := "QRIS",
      status := "pending", externalId := none, expiresAt := 10 }
    (by decide) (by decide) (by decide)
  exact ⟨h.1, h.2 99⟩

/-- C4 counterexample: `rejectDeposit` moves an already-`completed` deposit
to `rejected`, and the cancel callback moves an already-`completed` deposit
to `cancelled`; the claimed diagram admits no transition out of
`completed`. -/
theorem deposit_transition_violation :
    ((findDeposit (rejectDeposit
        [{ depositId := "D1", userId := 7, amount := 1000, method := "QRIS",
           status := "completed", externalId := none,
           expiresAt := 10 }] "D1").2 "D1").map Deposit.status =
      some "rejected") ∧
    ((findDeposit (depositCancelAction
        [{ depositId := "D2", userId := 7, amount := 1000, method := "QRIS",
           status := "completed", externalId := none,
           expiresAt := 10 }] "D2") "D2").map Deposit.status =
      some "cancelled") := by
  decide

/-- C4 amended: over a collection with distinct deposit ids,
`approveDeposit` and `cleanupExpiredDeposits` change only `pending`
deposits (to `completed` and `expired` respectively), but `rejectDeposit`
sets any found deposit to `rejected` and the cancel callback sets any
matching deposit to `cancelled`, regardless of the current status. -/
theorem deposit_transitions_amended (deposits : List Deposit) (did : String)
    (now : Int) (y : Deposit)
    (hnodup : (deposits.map (fun d => d.depositId)).Nodup)
    (hfind : findDeposit deposits did = some y) :
    (y.status = "pending" →
      findDeposit (approveDeposit deposits did).2 did =
        some { y with status := "completed" }) ∧
    (y.status ≠ "pending" → (approveDeposit deposits did).2 = deposits) ∧
    findDeposit (rejectDeposit deposits did).2 did =
      some { y with status := "rejected" } ∧
    findDeposit (depositCancelAction deposits did) did =
      some { y with status := "cancelled" } ∧
    (y.status = "pending" ∧ y.expiresAt < now →
      findDeposit (cleanupExpiredDeposits now deposits).2 did =
        some { y with status := "expired" }) ∧
    (¬(y.status = "pending" ∧ y.expiresAt < now) →
      findDeposit (cleanupExpiredDeposits now deposits).2 did = some y) := by
  have hymem : y ∈ deposits := List.mem_of_find?_eq_some hfind
  have hydid : y.depositId = did := by
    have := List.find?_some hfind
    simpa using this
  refine ⟨?_, ?_, ?_, ?_, ?_, ?_⟩
  · intro hp
    have hcond : (y.status != "pending") = false := by simp [hp]
    simp only [approveDeposit, hfind, hcond, Bool.false_eq_true, if_false]
    exact updateDepositStatus_find?_self deposits did "completed" y hfind
  · intro hp
    have hcond : (y.status != "pending") = true := by simp [hp]
    simp [approveDeposit, hfind, hcond]
  · simp only [rejectDeposit, hfind]
    exact updateDepositStatus_find?_self deposits did "rejected" y hfind
  · exact updateDepositStatus_find?_self deposits did "cancelled" y hfind
  · intro ⟨hp, hexp⟩
    exact cleanupDepositsGo_trigger now did deposits deposits 0 y hfind
      ⟨y, hymem, hydid, hp, hexp⟩
  · intro hnot
    refine cleanupDepositsGo_no_trigger now did deposits deposits 0 y hfind
      ?_
    intro d' hd' heq hpe
    have : d' = y :=
      List.inj_on_of_nodup_map hnodup hd' hymem (by rw [heq, hydid])
    exact hnot (this ▸ hpe)

/-- Witness for the amended C4 on a concrete completed deposit:
`rejectDeposit` rewrites it to `rejected` even though it is not pending. -/
theorem deposit_transitions_amended_witness :
    findDeposit (rejectDeposit
        [{ depositId := "D1", userId := 7, amount := 1000, method := "QRIS",
           status := "completed", externalId := none,
           expiresAt := 10 }] "D1").2 "D1" =
      some { depositId := "D1", userId := 7, amount := 1000,
             method := "QRIS", status := "rejected", externalId := none,
             expiresAt := 10 } :=
  (deposit_transitions_amended
    [{ depositId := "D1", userId := 7, amount := 1000, method := "QRIS",
       status := "completed", externalId := none, expiresAt := 10 }]
    "D1" 20
    { depositId := "D1", userId := 7, amount := 1000, method := "QRIS",
      status := "completed", externalId := none, expiresAt := 10 }
    (by decide) (by decide)).2.2.1


/-! ## CBC round-trip lemmas for C6 -/

/-- XORing twice with the same block is the identity. -/
theorem xorBytes_xorBytes (a : List Nat) :
    ∀ b : List Nat, a.length = b.length → xorBytes (xorBytes a b) b = a := by
  induction a with
  | nil =>
    intro b _
    rfl
  | cons x a ih =>
    intro b hb
    cases b with
    | nil => simp at hb
    | cons y b =>
      have hb' : a.length = b.length := by
        simp only [List.length_cons] at hb
        omega
      have hhead : Nat.xor (Nat.xor x y) y = x := by
        show (x ^^^ y) ^^^ y = x
        rw [Nat.xor_assoc, Nat.xor_self, Nat.xor_zero]
      simp only [xorBytes, List.zipWith_cons_cons, hhead, List.cons.injEq]
      exact ⟨trivial, ih b hb'⟩

/-- Length of a bytewise XOR. -/
theorem length_xorBytes (a b : List Nat) :
    (xorBytes a b).length = min a.length b.length :=
  List.length_zipWith Nat.xor a b

/-- Rebuilding the chunks recovers the original list. -/
theorem chunksAux_flatten :
    ∀ (fuel : Nat) (l : List Nat), l.length ≤ fuel →
      (chunksAux fuel l).flatten = l := by
  intro fuel
  induction fuel with
  | zero =>
    intro l hl
    have : l = [] := List.eq_nil_of_length_eq_zero (Nat.le_zero.mp hl)
    subst this
    rfl
  | succ fuel ih =>
    intro l hl
    cases l with
    | nil => rfl
    | cons a t =>
      show (((a :: t).take 16) :: chunksAux fuel ((a :: t).drop 16)).flatten
          = a :: t
      rw [List.flatten_cons]
      rw [ih ((a :: t).drop 16) (by rw [List.length_drop]; simp at hl ⊢; omega)]
      exact List.take_append_drop 16 (a :: t)

/-- When 16 divides the length, every chunk has length 16. -/
theorem chunksAux_length_mem :
    ∀ (fuel : Nat) (l : List Nat), l.length ≤ fuel → 16 ∣ l.length →
      ∀ b ∈ chunksAux fuel l, b.length = 16 := by
  intro fuel
  induction fuel with
  | zero =>
    intro l _ _ b hb
    exact absurd hb (List.not_mem_nil b)
  | succ fuel ih =>
    intro l hl hdvd b hb
    cases l with
    | nil => exact absurd hb (List.not_mem_nil b)
    | cons a t =>
      have hlen16 : 16 ≤ (a :: t).length := by
        refine Nat.le_of_dvd ?_ hdvd
        simp
      rcases List.mem_cons.mp hb with rfl | hb'
      · rw [List.length_take]
        omega
      · refine ih ((a :: t).drop 16) ?_ ?_ b hb'
        · rw [List.length_drop]
          simp at hl ⊢
          omega
        · rw [List.length_drop]
          exact Nat.dvd_sub' hdvd (dvd_refl 16)

/-- Chunking the concatenation of 16-byte blocks recovers the blocks. -/
theorem chunksAux_flatten_of_blocks :
    ∀ (cs : List (List Nat)) (fuel : Nat), cs.flatten.length ≤ fuel →
      (∀ b ∈ cs, b.length = 16) → chunksAux fuel cs.flatten = cs := by
  intro cs
  induction cs with
  | nil =>
    intro fuel _ _
    cases fuel with
    | zero => rfl
    | succ fuel => rfl
  | cons b cs ih =>
    intro fuel hfuel hlen
    have hb : b.length = 16 := hlen b (by simp)
    cases fuel with
    | zero =>
      exfalso
      rw [List.flatten_cons, List.length_append, hb] at hfuel
      omega
    | succ fuel =>
      cases b with
      | nil => simp at hb
      | cons b0 bt =>
        have htake : (b0 :: (bt ++ cs.flatten)).take 16 = b0 :: bt := by
          rw [← List.cons_append]
          exact List.take_left' hb
        have hdrop : (b0 :: (bt ++ cs.flatten)).drop 16 = cs.flatten := by
          rw [← List.cons_append]
          exact List.drop_left' hb
        have hrest : cs.flatten.length ≤ fuel := by
          rw [List.flatten_cons, List.length_append, hb] at hfuel
          omega
        simp only [List.flatten_cons, List.cons_append, chunksAux,
          List.append_eq]
        rw [htake, hdrop, ih fuel hrest (fun x hx => hlen x (by simp [hx]))]

/-- Every CBC ciphertext block has length 16 when the core preserves block
length. -/
theorem cbcEncBlocks_length (E : List Nat → List Nat)
    (hE : ∀ b, b.length = 16 → (E b).length = 16) :
    ∀ (bs : List (List Nat)) (prev : List Nat), prev.length = 16 →
      (∀ b ∈ bs, b.length = 16) →
      ∀ cb ∈ cbcEncBlocks E prev bs, cb.length = 16 := by
  intro bs
  induction bs with
  | nil =>
    intro prev _ _ cb hcb
    exact absurd hcb (List.not_mem_nil cb)
  | cons b bs ih =>
    intro prev hprev hlen cb hcb
    have hb : b.length = 16 := hlen b (by simp)
    have hxlen : (xorBytes b prev).length = 16 := by
      rw [length_xorBytes, hb, hprev]
      simp
    have hc : (E (xorBytes b prev)).length = 16 := hE _ hxlen
    rcases List.mem_cons.mp hcb with rfl | hcb'
    · exact hc
    · exact ih (E (xorBytes b prev)) hc (fun x hx => hlen x (by simp [hx]))
        cb hcb'

/-- CBC decryption inverts CBC encryption on 16-byte blocks. -/
theorem cbcDecBlocks_cbcEncBlocks (E D : List Nat → List Nat)
    (hE : ∀ b, b.length = 16 → (E b).length = 16)
    (hD : ∀ b, b.length = 16 → D (E b) = b) :
    ∀ (bs : List (List Nat)) (prev : List Nat), prev.length = 16 →
      (∀ b ∈ bs, b.length = 16) →
      cbcDecBlocks D prev (cbcEncBlocks E prev bs) = bs := by
  intro bs
  induction bs with
  | nil =>
    intro prev _ _
    rfl
  | cons b bs ih =>
    intro prev hprev hlen
    have hb : b.length = 16 := hlen b (by simp)
    have hxlen : (xorBytes b prev).length = 16 := by
      rw [length_xorBytes, hb, hprev]
      simp
    have hc : (E (xorBytes b prev)).length = 16 := hE _ hxlen
    show xorBytes (D (E (xorBytes b prev))) prev
        :: cbcDecBlocks D (E (xorBytes b prev))
          (cbcEncBlocks E (E (xorBytes b prev)) bs) = b :: bs
    rw [hD _ hxlen,
      xorBytes_xorBytes b prev (by rw [hb, hprev]),
      ih (E (xorBytes b prev)) hc (fun x hx => hlen x (by simp [hx]))]

/-- The padded length is a multiple of 16. -/
theorem pad16_length_dvd (s : List Nat) : 16 ∣ (pad16 s).length := by
  have hm : s.length % 16 < 16 := Nat.mod_lt _ (by norm_num)
  have hd := Nat.div_add_mod s.length 16
  refine ⟨s.length / 16 + 1, ?_⟩
  simp [pad16, List.length_append, List.length_replicate]
  omega

/-- PKCS#7 unpadding inverts PKCS#7 padding. -/
theorem unpad16_pad16 (s : List Nat) : unpad16 (pad16 s) = some s := by
  have hm : s.length % 16 < 16 := Nat.mod_lt _ (by norm_num)
  have hk1 : 1 ≤ 16 - s.length % 16 := by omega
  have hk16 : 16 - s.length % 16 ≤ 16 := by omega
  have hrep : List.replicate (16 - s.length % 16) (16 - s.length % 16)
      = List.replicate (16 - s.length % 16 - 1) (16 - s.length % 16)
        ++ [16 - s.length % 16] := by
    rw [← List.replicate_succ']
    congr 1
    omega
  have hlast : (pad16 s).getLast? = some (16 - s.length % 16) := by
    rw [pad16, hrep, ← List.append_assoc]
    exact List.getLast?_concat _
  have hlen : (pad16 s).length = s.length + (16 - s.length % 16) := by
    simp [pad16, List.length_append, List.length_replicate]
  have hdrop : (pad16 s).drop ((pad16 s).length - (16 - s.length % 16))
      = List.replicate (16 - s.length % 16) (16 - s.length % 16) := by
    rw [hlen, pad16]
    rw [show s.length + (16 - s.length % 16) - (16 - s.length % 16)
        = s.length from by omega]
    exact List.drop_left' rfl
  have htake : (pad16 s).take ((pad16 s).length - (16 - s.length % 16))
      = s := by
    rw [hlen, pad16]
    rw [show s.length + (16 - s.length % 16) - (16 - s.length % 16)
        = s.length from by omega]
    exact List.take_left' rfl
  rw [unpad16, hlast]
  show (if 1 ≤ 16 - s.length % 16 ∧ 16 - s.length % 16 ≤ 16 ∧
      16 - s.length % 16 ≤ (pad16 s).length ∧
      (pad16 s).drop ((pad16 s).length - (16 - s.length % 16))
        = List.replicate (16 - s.length % 16) (16 - s.length % 16) then
    some ((pad16 s).take ((pad16 s).length - (16 - s.length % 16)))
    else none) = some s
  rw [if_pos ⟨hk1, hk16, by rw [hlen]; omega, hdrop⟩]
  rw [htake]

/-- `decrypt` inverts `encrypt`: the static-key CBC pipeline round-trips on
every serialised collection. -/
theorem decryptSec_encryptSec (E D : List Nat → List Nat → List Nat)
    (cfg : SecurityConfig) (hiv : cfg.encryptionIv.length = 16)
    (hE : ∀ b, b.length = 16 → (E cfg.encryptionKey b).length = 16)
    (hD : ∀ b, b.length = 16 →
      D cfg.encryptionKey (E cfg.encryptionKey b) = b)
    (s : List Nat) : decryptSec D cfg (encryptSec E cfg s) = some s := by
  have hdvd := pad16_length_dvd s
  have hblocks : ∀ b ∈ chunks16 (pad16 s), b.length = 16 :=
    chunksAux_length_mem (pad16 s).length (pad16 s) le_rfl hdvd
  have henc16 : ∀ cb ∈ cbcEncBlocks (E cfg.encryptionKey) cfg.encryptionIv
      (chunks16 (pad16 s)), cb.length = 16 :=
    cbcEncBlocks_length (E cfg.encryptionKey) hE (chunks16 (pad16 s))
      cfg.encryptionIv hiv hblocks
  show unpad16 (cbcDecBlocks (D cfg.encryptionKey) cfg.encryptionIv
    (chunks16 ((cbcEncBlocks (E cfg.encryptionKey) cfg.encryptionIv
      (chunks16 (pad16 s))).flatten))).flatten = some s
  rw [show chunks16 ((cbcEncBlocks (E cfg.encryptionKey) cfg.encryptionIv
      (chunks16 (pad16 s))).flatten)
      = cbcEncBlocks (E cfg.encryptionKey) cfg.encryptionIv
        (chunks16 (pad16 s)) from
    chunksAux_flatten_of_blocks _ _ le_rfl henc16]
  rw [cbcDecBlocks_cbcEncBlocks (E cfg.encryptionKey) (D cfg.encryptionKey)
    hE hD (chunks16 (pad16 s)) cfg.encryptionIv hiv hblocks]
  rw [show (chunks16 (pad16 s)).flatten = pad16 s from
    chunksAux_flatten (pad16 s).length (pad16 s) le_rfl]
  exact unpad16_pad16 s


/-- C6: with `config.DATABASE.ENCRYPTION` enabled, `writeData` stores the
entire serialised collection as one AES-256-CBC ciphertext under the static
key/IV pair from configuration, `readData` decrypts it with the same static
pair, and reading back after writing (cache cleared, so the file is
actually decrypted) returns exactly the written collection:
decrypt ∘ encrypt is the identity on the serialised collection. -/
theorem encrypted_write_read_roundtrip
    (E D : List Nat → List Nat → List Nat)
    (cfg : SecurityConfig) (hiv : cfg.encryptionIv.length = 16)
    (hE : ∀ b, b.length = 16 → (E cfg.encryptionKey b).length = 16)
    (hD : ∀ b, b.length = 16 →
      D cfg.encryptionKey (E cfg.encryptionKey b) = b)
    (s : List Nat) (st : DBState Nat) :
    (writeData (aesCodec E D cfg) true st s).1 = true ∧
    (writeData (aesCodec E D cfg) true st s).2.file =
      some (encryptSec E cfg s) ∧
    readData (aesCodec E D cfg) true
        (clearCache (writeData (aesCodec E D cfg) true st s).2) =
      (s, { cache := some s, file := some (encryptSec E cfg s) }) := by
  refine ⟨rfl, rfl, ?_⟩
  have hrt := decryptSec_encryptSec E D cfg hiv hE hD s
  simp [readData, readDataTry, writeData, writeDataTry, clearCache,
    aesCodec, hrt]

/-- Witness for C6 with the identity block core and an all-zero static
key/IV pair, on the serialised collection `[1, 2, 3]`. -/
theorem encrypted_write_read_roundtrip_witness :
    (writeData (aesCodec (fun _ b => b) (fun _ b => b)
        { encryptionKey := List.replicate 32 0,
          encryptionIv := List.replicate 16 0 }) true
        { cache := none, file := none } [1, 2, 3]).1 = true ∧
    (writeData (aesCodec (fun _ b => b) (fun _ b => b)
        { encryptionKey := List.replicate 32 0,
          encryptionIv := List.replicate 16 0 }) true
        { cache := none, file := none } [1, 2, 3]).2.file =
      some (encryptSec (fun _ b => b)
        { encryptionKey := List.replicate 32 0,
          encryptionIv := List.replicate 16 0 } [1, 2, 3]) ∧
    readData (aesCodec (fun _ b => b) (fun _ b => b)
        { encryptionKey := List.replicate 32 0,
          encryptionIv := List.replicate 16 0 }) true
        (clearCache (writeData (aesCodec (fun _ b => b) (fun _ b => b)
          { encryptionKey := List.replicate 32 0,
            encryptionIv := List.replicate 16 0 }) true
          { cache := none, file := none } [1, 2, 3]).2) =
      ([1, 2, 3],
        { cache := some [1, 2, 3],
          file := some (encryptSec (fun _ b => b)
            { encryptionKey := List.replicate 32 0,
              encryptionIv := List.replicate 16 0 } [1, 2, 3]) }) :=
  encrypted_write_read_roundtrip (fun _ b => b) (fun _ b => b)
    { encryptionKey := List.replicate 32 0,
      encryptionIv := List.replicate 16 0 }
    rfl (fun _ hb => hb) (fun _ _ => rfl) [1, 2, 3]
    { cache := none, file := none }


/-! ## C8: the cache is a consistent whole-file memoization -/

/-- Each public cache/file operation preserves cache consistency. -/
theorem cacheConsistent_runOp {α : Type} (c : Codec α)
    (hdec : ∀ x, c.dec (c.enc x) = some x) (op : DBOp α) (st : DBState α)
    (hst : cacheConsistent c st) : cacheConsistent c (runOp c op st) := by
  cases op with
  | read r =>
    rcases hc : st.cache with _ | d
    · rcases hf : st.file with _ | bytes
      · intro d0 hd0
        have hs : runOp c (DBOp.read r) st = st := by
          simp [runOp, readData, readDataTry, hc, hf]
        rw [hs] at hd0 ⊢
        exact hst d0 hd0
      · rcases r with _ | _
        · intro d0 hd0
          have hs : runOp c (DBOp.read false) st = st := by
            simp [runOp, readData, readDataTry, hc, hf]
          rw [hs] at hd0 ⊢
          exact hst d0 hd0
        · rcases hd : c.dec bytes with _ | d'
          · intro d0 hd0
            have hs : runOp c (DBOp.read true) st = st := by
              simp [runOp, readData, readDataTry, hc, hf, hd]
            rw [hs] at hd0 ⊢
            exact hst d0 hd0
          · intro d0 hd0
            have hs : runOp c (DBOp.read true) st =
                { st with cache := some d' } := by
              simp [runOp, readData, readDataTry, hc, hf, hd]
            rw [hs] at hd0
            have hd0' : d' = d0 := by
              simpa using hd0
            refine ⟨bytes, ?_, ?_⟩
            · rw [hs]
              simpa using hf
            · rw [← hd0']
              exact hd
    · intro d0 hd0
      have hs : runOp c (DBOp.read r) st = st := by
        simp [runOp, readData, readDataTry, hc]
      rw [hs] at hd0 ⊢
      exact hst d0 hd0
  | write w dat =>
    rcases w with _ | _
    · intro d0 hd0
      have hs : runOp c (DBOp.write false dat) st = st := by
        simp [runOp, writeData, writeDataTry]
      rw [hs] at hd0 ⊢
      exact hst d0 hd0
    · intro d0 hd0
      have hs : runOp c (DBOp.write true dat) st =
          { cache := some dat, file := some (c.enc dat) } := by
        simp [runOp, writeData, writeDataTry]
      rw [hs] at hd0
      have hd0' : dat = d0 := by
        simpa using hd0
      rw [hs]
      exact ⟨c.enc dat, rfl, by rw [← hd0']; exact hdec dat⟩
  | clear =>
    intro d0 hd0
    simp [runOp, clearCache] at hd0

/-- C8: when the codec round-trips, any sequence of `readData` /
`writeData` / `clearCache` operations keeps every cached entry equal to the
decoded content of the collection's file; a `readData` right after a
successful `writeData dat` returns exactly `dat`; and a `readData` on a
cached collection serves the cache without touching the file. -/
theorem cache_memoization_consistent {α : Type} (c : Codec α)
    (hdec : ∀ x, c.dec (c.enc x) = some x)
    (ops : List (DBOp α)) (st : DBState α) (hst : cacheConsistent c st) :
    cacheConsistent c (runOps c ops st) ∧
    (∀ (st' : DBState α) (dat : List α) (r : Bool),
      (writeData c true st' dat).1 = true ∧
      readData c r (writeData c true st' dat).2 =
        (dat, (writeData c true st' dat).2)) ∧
    (∀ (st' : DBState α) (dat : List α) (r : Bool),
      st'.cache = some dat → readData c r st' = (dat, st')) := by
  refine ⟨?_, ?_, ?_⟩
  · induction ops generalizing st with
    | nil => exact hst
    | cons op rest ih => exact ih _ (cacheConsistent_runOp c hdec op st hst)
  · intro st' dat r
    exact ⟨rfl, rfl⟩
  · intro st' dat r hc
    simp [readData, readDataTry, hc]

/-- Witness for C8 with the trivial codec: a write/read/clear/read sequence
from the empty state keeps the cache consistent, and reading right after a
successful write returns the written collection. -/
theorem cache_memoization_consistent_witness :
    cacheConsistent natListCodec
      (runOps natListCodec
        [DBOp.write true [5], DBOp.read true, DBOp.clear, DBOp.read true]
        { cache := none, file := none }) ∧
    ((writeData natListCodec true { cache := none, file := none } [7]).1 =
        true ∧
      readData natListCodec true
          (writeData natListCodec true { cache := none, file := none }
            [7]).2 =
        ([7],
          (writeData natListCodec true { cache := none, file := none }
            [7]).2)) := by
  have h := cache_memoization_consistent natListCodec (fun _ => rfl)
    [DBOp.write true [5], DBOp.read true, DBOp.clear, DBOp.read true]
    { cache := none, file := none } (fun d hd => nomatch hd)
  exact ⟨h.1, h.2.1 { cache := none, file := none } [7] true⟩

/-! ## C7: the catch-and-return-failure pattern -/

/-- C7 counterexample: `DatabaseManager.initDatabase` is a public data-layer
operation whose catch block rethrows, so a failing `fs.ensureDir` propagates
an exception out of the operation instead of producing a failure value
(and, unawaited in the constructor, it becomes an unhandled rejection). -/
theorem initDatabase_propagates :
    initDatabase natListCodec false true { cache := none, file := none } =
      .error "mkdir error" := rfl

/-- C7 amended: the modelled public operations catch internal exceptions
and return failure values — `readData` maps every internal error to the
default data with the state untouched, `writeData` maps it to `false` with
the state untouched, and `createOrder` returns a success/failure object for
every input — except `DatabaseManager.initDatabase`, whose catch block
rethrows, so an initialization failure escapes as an exception. -/
theorem error_handling_amended :
    (∀ (α : Type) (c : Codec α) (r : Bool) (st : DBState α),
      (∃ v, readDataTry c r st = .ok v ∧ readData c r st = v) ∨
      (∃ e, readDataTry c r st = .error e ∧ readData c r st = ([], st))) ∧
    (∀ (α : Type) (c : Codec α) (w : Bool) (st : DBState α)
        (dat : List α),
      (∃ v, writeDataTry c w st dat = .ok v ∧
        writeData c w st dat = (true, v)) ∨
      (∃ e, writeDataTry c w st dat = .error e ∧
        writeData c w st dat = (false, st))) ∧
    (∀ (cO : Codec Order) (r w : Bool) (st : DBState Order) (oid : String)
        (now uid : Int) (pn : String) (am : Int),
      ∃ o st', dbCreateOrder cO r w st oid now uid pn am =
        (.success o, st')) ∧
    (∀ (α : Type) (c : Codec α) (wInit : Bool) (st : DBState α),
      ∃ e, initDatabase c false wInit st = .error e) := by
  refine ⟨?_, ?_, ?_, ?_⟩
  · intro α c r st
    rcases h : readDataTry c r st with e | v
    · exact Or.inr ⟨e, rfl, by simp [readData, h]⟩
    · exact Or.inl ⟨v, rfl, by simp [readData, h]⟩
  · intro α c w st dat
    rcases h : writeDataTry c w st dat with e | v
    · exact Or.inr ⟨e, rfl, by simp [writeData, h]⟩
    · exact Or.inl ⟨v, rfl, by simp [writeData, h]⟩
  · intro cO r w st oid now uid pn am
    exact ⟨_, _, rfl⟩
  · intro α c wInit st
    exact ⟨"mkdir error", rfl⟩

/-! ## C5: order creation and balance deduction are not atomic -/

/-- C5: an execution of the pay-with-balance flow in which the order insert
takes effect but the balance deduction does not.  The user has balance 100
and the product costs 60; the order-collection writes succeed while the
user-collection writes fail (`wBal := false`).  The deduction's failed
persistence is not inspected and nothing is rolled back, so the flow still
reports payment success, the final order collection records the order as
paid/processing, and the user's stored balance is still 100.  This holds
for every codec, i.e. with or without datastore encryption. -/
theorem balance_purchase_not_atomic (cU : Codec User) (cO : Codec Order)
    (cP : Codec Product) :
    (handlePaymentBalance cU cO cP
        { rProducts := true, rUsers := true, rInsOrder := true,
          wInsOrder := true, rBal1 := true, rBal2 := true, wBal := false,
          rUpdOrder := true, wUpdOrder := true, rInc1 := true,
          rInc2 := true, wInc := false }
        { users := { cache := some [{ userId := 1, balance := 100,
                                      statTotalOrders := 0 }],
                     file := none },
          orders := { cache := some [], file := none },
          products := { cache := some [{ productId := "P1",
                                         name := "ebook", price := 60,
                                         stock := 5, totalSales := 0,
                                         status := "active" }],
                        file := none } }
        1 "P1" "O1" 0).1 = .paymentSuccess ∧
    (readData cU true (handlePaymentBalance cU cO cP
        { rProducts := true, rUsers := true, rInsOrder := true,
          wInsOrder := true, rBal1 := true, rBal2 := true, wBal := false,
          rUpdOrder := true, wUpdOrder := true, rInc1 := true,
          rInc2 := true, wInc := false }
        { users := { cache := some [{ userId := 1, balance := 100,
                                      statTotalOrders := 0 }],
                     file := none },
          orders := { cache := some [], file := none },
          products := { cache := some [{ productId := "P1",
                                         name := "ebook", price := 60,
                                         stock := 5, totalSales := 0,
                                         status := "active" }],
                        file := none } }
        1 "P1" "O1" 0).2.users).1 =
      [{ userId := 1, balance := 100, statTotalOrders := 0 }] ∧
    (readData cO true (handlePaymentBalance cU cO cP
        { rProducts := true, rUsers := true, rInsOrder := true,
          wInsOrder := true, rBal1 := true, rBal2 := true, wBal := false,
          rUpdOrder := true, wUpdOrder := true, rInc1 := true,
          rInc2 := true, wInc := false }
        { users := { cache := some [{ userId := 1, balance := 100,
                                      statTotalOrders := 0 }],
                     file := none },
          orders := { cache := some [], file := none },
          products := { cache := some [{ productId := "P1",
                                         name := "ebook", price := 60,
                                         stock := 5, totalSales := 0,
                                         status := "active" }],
                        file := none } }
        1 "P1" "O1" 0).2.orders).1 =
      [{ orderId := "O1", userId := 1, productName := "ebook",
         amount := 60, status := "processing", paymentStatus := "paid",
         deliveryStatus := "pending", expiresAt := 3600000 }] := by
  refine ⟨rfl, rfl, rfl⟩

end Digitalbot
